import Mathlib

/-!
Verification of the two-tier response cache of `prd_generator`
(`src/prd_generator/utils/cache_manager.py`).

The embedding models the `CacheManager` class: an in-memory tier
(`memory_cache`, a Python dict from key to `(value, timestamp)`, modelled as an
insertion-ordered association list) and a durable tier (one pickle file per key
in `cache_dir`, modelled as an association list from key to file content).
Wall-clock time (`time.time()`) is passed explicitly as a integer `now`
argument.  Python exceptions are modelled by the inductive `PyExc`; an
operation that can propagate an exception returns an `Except PyExc` result
together with the state as mutated up to the point of the raise.

Filesystem primitives (`open`, `os.remove`, `os.rename`, `os.listdir`,
directory creation) are modelled as succeeding; what varies is the CONTENT of
durable records, which can be a well-formed pickled `{value, timestamp}` dict,
a pickled dict missing the timestamp field, a truncated/empty stream, or
opcode-level garbage.
-/

namespace PrdCache

/-- Python values as relevant to the cache: `none` is the Python `None` object,
`lock` stands for an object that `pickle` refuses with `TypeError`
(e.g. a `threading.Lock`). -/
inductive Value where
  | none
  | int (n : Int)
  | str (s : String)
  | lock
deriving DecidableEq, Repr

/-- Python exception classes reachable in the cache paths.  `pickleError`
stands for the `pickle.PickleError` family (both pickling and unpickling
errors), `osError` for `OSError`/`IOError`, and `other` for an arbitrary
exception raised by a wrapped user function. -/
inductive PyExc where
  | eofError
  | pickleError
  | osError
  | keyError
  | typeError
  | other (msg : String)
deriving DecidableEq, Repr

/-- Content of a durable record file `<key>.cache`. -/
inductive FileContent where
  | record (value : Value) (timestamp : ℤ)
  | recordNoTimestamp (value : Value)
  | truncated
  | garbage
deriving DecidableEq, Repr

/-- The body of the `try` block in `get` (source lines 131-139 of
`cache_manager.py`): `pickle.load(f)` followed by `data[...]` field access.
Per the Python pickle documentation, `load` raises `UnpicklingError` on
corrupt opcode streams but can also raise other exceptions, including
`EOFError` when the input stream is truncated/empty; a well-formed pickled
dict that lacks the `timestamp` key raises `KeyError` at the field access. -/
def pickleLoadEntry : FileContent → Except PyExc (Value × ℤ)
  | .record v t => .ok (v, t)
  | .recordNoTimestamp _ => .error .keyError
  | .truncated => .error .eofError
  | .garbage => .error .pickleError

/-- `pickle.dump({value, timestamp}, f)` in `set` (source lines 196-201):
succeeds for picklable values; pickling an OS-level object such as a thread
lock raises `TypeError`. -/
def pickleDumpEntry (v : Value) (t : ℤ) : Except PyExc FileContent :=
  match v with
  | .lock => .error .typeError
  | v => .ok (.record v t)

/-- Whether `repair` considers a record corrupted: its `pickle.load` fails
(source lines 290-293; the field access is not performed there). -/
def loadFails : FileContent → Bool
  | .truncated => true
  | .garbage => true
  | _ => false

/-- The exception classes listed in the `except` clause of `get`
(source line 146): `(pickle.PickleError, OSError, IOError, KeyError)`. -/
def getCaught : PyExc → Bool
  | .pickleError => true
  | .osError => true
  | .keyError => true
  | _ => false

/-- The exception classes listed in the `except` clause of `set`
(source line 208): `(pickle.PickleError, OSError, IOError)`. -/
def setCaught : PyExc → Bool
  | .pickleError => true
  | .osError => true
  | _ => false

/-- One memory-tier entry: key, value, timestamp. -/
abbrev Entry := String × Value × ℤ

/-- The `CacheManager` instance state: configuration (`ttl`, `max_size`) plus
the two tiers. -/
structure CacheManager where
  ttl : ℤ
  maxSize : Nat
  memory : List Entry
  disk : List (String × FileContent)
deriving DecidableEq, Repr

/-- Lookup by key in an insertion-ordered association list: dict indexing
`memory_cache[key]`, dict membership `key in memory_cache`, and existence of
the durable record `<key>.cache`, depending on the list. -/
def lookupKey {β : Type} : List (String × β) → String → Option β
  | [], _ => Option.none
  | e :: rest, k => if e.1 = k then some e.2 else lookupKey rest k

/-- Removal by key: `del memory_cache[key]` on the memory tier, `os.remove`
of `<key>.cache` on the durable tier. -/
def removeKey {β : Type} (l : List (String × β)) (k : String) : List (String × β) :=
  l.filter (fun e => decide (e.1 ≠ k))

/-- Dict assignment `memory_cache[key] = (value, timestamp)`: a Python dict
update keeps the position of an existing key and appends a new key at the
end of the iteration order. -/
def dictSet (mem : List Entry) (k : String) (v : Value) (t : ℤ) : List Entry :=
  if (lookupKey mem k).isSome then
    mem.map (fun e => if e.1 = k then (k, v, t) else e)
  else mem ++ [(k, v, t)]

/-- The write path of `set`: write a temp file, remove an existing record,
rename the temp file onto `<k>.cache` (source lines 195-206). -/
def diskSet (d : List (String × FileContent)) (k : String) (c : FileContent) :
    List (String × FileContent) :=
  removeKey d k ++ [(k, c)]

/-- Ordering of memory entries by timestamp, as in
`sorted(memory_cache.items(), key=lambda x: x[1][1])`. -/
def tsLE (a b : Entry) : Prop := a.2.2 ≤ b.2.2

instance : DecidableRel tsLE := fun a b => Int.decLe a.2.2 b.2.2

/-- `sorted(memory_cache.items(), key=lambda x: x[1][1])` (source lines
177-180): Python sorted is a stable sort by timestamp ascending; insertion
sort with `tsLE` places an earlier-input element before later ties, hence is
stable in the same sense and produces the same list. -/
def sortTs (l : List Entry) : List Entry := l.insertionSort tsLE

/-- The memory-tier eviction sweep of `set` (source lines 175-184): when the
entry count exceeds `max_size`, sort by timestamp ascending and delete the
keys of the oldest `max(1, count // 10)` entries. -/
def evictOldest (mem : List Entry) (maxSize : Nat) : List Entry :=
  if mem.length > maxSize then
    mem.filter (fun e =>
      decide (e.1 ∉ ((sortTs mem).take (max 1 (mem.length / 10))).map (fun e => e.1)))
  else mem

/-- `CacheManager.set` (source lines 157-216): update the memory tier, run the
eviction sweep, then best-effort write the durable record.  A `PickleError`
or `OSError` during the write is caught and turns into a `False` return; any
other exception (such as `TypeError` from pickling a lock) propagates.  The
memory-tier update survives in every case, matching the mutation order of
the source. -/
def CacheManager.set (s : CacheManager) (k : String) (v : Value) (now : ℤ) :
    Except PyExc Bool × CacheManager :=
  let mem2 := evictOldest (dictSet s.memory k v now) s.maxSize
  match pickleDumpEntry v now with
  | .ok c => (.ok true, { s with memory := mem2, disk := diskSet s.disk k c })
  | .error e =>
      if setCaught e then (.ok false, { s with memory := mem2 })
      else (.error e, { s with memory := mem2 })

/-- The durable-tier half of `get` (source lines 127-155): load the record;
if valid, populate the memory tier and return the value; if expired, delete
the record and return `None`; if loading raises one of the classes in
`getCaught`, delete the record and return `None`; any other exception
(such as `EOFError` on a truncated stream) propagates. -/
def getFromFile (s : CacheManager) (k : String) (now : ℤ) :
    Except PyExc Value × CacheManager :=
  match lookupKey s.disk k with
  | Option.none => (.ok .none, s)
  | some c =>
      match pickleLoadEntry c with
      | .ok (v, t) =>
          if now - t ≤ s.ttl then
            (.ok v, { s with memory := dictSet s.memory k v t })
          else
            (.ok .none, { s with disk := removeKey s.disk k })
      | .error e =>
          if getCaught e then (.ok .none, { s with disk := removeKey s.disk k })
          else (.error e, s)

/-- `CacheManager.get` (source lines 107-155).  The Python method returns the
cached object on a hit and the `None` object on a miss, so the result type is
a single `Value` with `Value.none` playing both roles, exactly as in the
source.  A memory entry older than `ttl` is deleted and the durable tier is
consulted. -/
def CacheManager.get (s : CacheManager) (k : String) (now : ℤ) :
    Except PyExc Value × CacheManager :=
  match lookupKey s.memory k with
  | some (v, t) =>
      if now - t ≤ s.ttl then (.ok v, s)
      else getFromFile { s with memory := removeKey s.memory k } k now
  | Option.none => getFromFile s k now

/-- `CacheManager.invalidate` (source lines 218-245): remove the key from both
tiers; the result is whether either tier contained it. -/
def CacheManager.invalidate (s : CacheManager) (k : String) : Bool × CacheManager :=
  (((lookupKey s.memory k).isSome || (lookupKey s.disk k).isSome),
   { s with memory := removeKey s.memory k, disk := removeKey s.disk k })

/-- `CacheManager.clear` (source lines 247-272): `count` starts as the number
of memory entries, the memory dict is cleared, and then every `.cache` file
in the directory is removed with `count += 1` each — so a key present in both
tiers contributes twice to the returned count.  Every file in the modelled
directory is a `<key>.cache` record and every removal succeeds. -/
def clearLoop : List (String × FileContent) → Nat → Nat
  | [], count => count
  | _ :: rest, count => clearLoop rest (count + 1)

def CacheManager.clear (s : CacheManager) : Nat × CacheManager :=
  (clearLoop s.disk s.memory.length, { s with memory := [], disk := [] })

/-- `CacheManager.repair` (source lines 274-305): delete every durable record
whose `pickle.load` fails (a bare `except` there catches all classes) and
return how many were deleted. -/
def CacheManager.repair (s : CacheManager) : Nat × CacheManager :=
  ((s.disk.filter (fun e => loadFails e.2)).length,
   { s with disk := s.disk.filter (fun e => !loadFails e.2) })

/-- Python `repr` of a cached argument value, as used inside `str(args)` and
`str(sorted(kwargs.items()))`. -/
def pyRepr : Value → String
  | .none => "None"
  | .int n => toString n
  | .str s => "\x27" ++ s ++ "\x27"
  | .lock => "<lock object>"

/-- `str(args)` for the positional-argument tuple. -/
def reprArgs (args : List Value) : String :=
  "(" ++ String.intercalate ", " (args.map pyRepr) ++
    (if args.length = 1 then ",)" else ")")

/-- Ordering of kwargs items by key, as in `sorted(kwargs.items())`: the
tuple comparison looks at the key first and, since dict keys are unique,
never reaches the values. -/
def kwLE (a b : String × Value) : Prop := a.1 ≤ b.1

instance : DecidableRel kwLE := fun a b => inferInstanceAs (Decidable (a.1 ≤ b.1))

/-- `sorted(kwargs.items())` (source line 72). -/
def sortKw (l : List (String × Value)) : List (String × Value) := l.insertionSort kwLE

/-- `repr` of one `(key, value)` item of the kwargs dict. -/
def reprKwItem (p : String × Value) : String :=
  "(\x27" ++ p.1 ++ "\x27, " ++ pyRepr p.2 ++ ")"

/-- `str(sorted(kwargs.items()))`. -/
def reprKwargs (kwargs : List (String × Value)) : String :=
  "[" ++ String.intercalate ", " ((sortKw kwargs).map reprKwItem) ++ "]"

/-- Modelled `hashlib.md5(...).hexdigest()` (source lines 74-76): a 128-bit
digest of the argument string, rendered in hexadecimal.  The claims depend
only on the digest being a deterministic function of its input, so the md5
compression internals are modelled by a simple 128-bit fold. -/
def md5Hex (s : String) : String :=
  String.mk (Nat.toDigits 16 (s.foldl (fun h c => (h * 131 + c.toNat) % 2 ^ 128) 5381))

/-- `CacheManager._get_cache_key` (source lines 59-80) on arguments that
render successfully (the fallback branch is for arguments whose rendering
raises, which cannot happen for the modelled value types). -/
def getCacheKey (args : List Value) (kwargs : List (String × Value)) : String :=
  md5Hex (reprArgs args ++ reprKwargs kwargs)

/-- The full cache key of the wrapper (source line 322):
`f-string of module.name:argument-digest`. -/
def wrapKey (modName funcName : String) (args : List Value)
    (kwargs : List (String × Value)) : String :=
  modName ++ "." ++ funcName ++ ":" ++ getCacheKey args kwargs

/-- The `wrapper` closure produced by the `cached` decorator (source lines
319-348), for a deterministic wrapped function whose behavior on the given
arguments is `fres` (either a returned `Value` or a raised exception).  The
result carries the returned-or-raised outcome, the cache state, and how many
times the underlying function body ran.

Faithful to the source: exceptions from `self.get` are swallowed by the inner
`try` and treated as a miss; a hit is recognized by `cached_result is not
None`, so a cached `None` is indistinguishable from a miss; exceptions from
`self.set` are swallowed; an exception raised by the function itself is
caught by the OUTER `try`, whose handler calls the function directly a second
time. -/
def cachedWrapper (s : CacheManager) (key : String) (fres : Except PyExc Value)
    (now : ℤ) : Except PyExc Value × CacheManager × Nat :=
  let g := CacheManager.get s key now
  let cachedResult : Value := match g.1 with | .ok v => v | .error _ => Value.none
  if cachedResult ≠ Value.none then (.ok cachedResult, g.2, 0)
  else
    match fres with
    | .ok result =>
        let st := CacheManager.set g.2 key result now
        (.ok result, st.2, 1)
    | .error e => (.error e, g.2, 2)

/-- The decorator factory `cached(ttl=...)` (source lines 307-362).  The `ttl`
argument is accepted by the factory but never referenced inside `decorator`
or `wrapper`, so the produced wrapper behaves identically for every
override value. -/
def cachedWrapperT (_ttlOverride : Option ℤ) (s : CacheManager) (key : String)
    (fres : Except PyExc Value) (now : ℤ) : Except PyExc Value × CacheManager × Nat :=
  cachedWrapper s key fres now

/-- Two consecutive calls of a wrapped deterministic function with identical
arguments, at times `t1` and `t2`: returns both outcomes, the final state,
and the total number of runs of the underlying function body. -/
def wrapperTwice (s : CacheManager) (key : String) (fres : Except PyExc Value)
    (t1 t2 : ℤ) : Except PyExc Value × Except PyExc Value × CacheManager × Nat :=
  let r1 := cachedWrapper s key fres t1
  let r2 := cachedWrapper r1.2.1 key fres t2
  (r1.1, r2.1, r2.2.1, r1.2.2 + r2.2.2)

/-- A sequence of `set` calls, as in the eviction-bound property. -/
def applySets (s : CacheManager) : List (String × Value × ℤ) → CacheManager
  | [] => s
  | (k, v, t) :: rest => applySets (CacheManager.set s k v t).2 rest


/-! ### Association-list lemmas -/

theorem lookupKey_append_of_none {β : Type} {l1 l2 : List (String × β)} {k : String}
    (h : lookupKey l1 k = Option.none) :
    lookupKey (l1 ++ l2) k = lookupKey l2 k := by
  induction l1 with
  | nil => simp
  | cons e rest ih =>
    by_cases hek : e.1 = k
    · simp [lookupKey, hek] at h
    · simp only [lookupKey, hek, if_false, List.cons_append] at h ⊢
      exact ih h

theorem lookupKey_eq_none {β : Type} {l : List (String × β)} {k : String} :
    lookupKey l k = Option.none ↔ ∀ e ∈ l, e.1 ≠ k := by
  induction l with
  | nil => simp [lookupKey]
  | cons e rest ih =>
    by_cases hek : e.1 = k <;> simp [lookupKey, hek, ih]

theorem lookupKey_removeKey_self {β : Type} (l : List (String × β)) (k : String) :
    lookupKey (removeKey l k) k = Option.none := by
  rw [lookupKey_eq_none]
  intro e he
  simpa using List.of_mem_filter he

theorem lookupKey_diskSet_self (d : List (String × FileContent)) (k : String)
    (c : FileContent) : lookupKey (diskSet d k c) k = some c := by
  unfold diskSet
  rw [lookupKey_append_of_none (lookupKey_removeKey_self d k)]
  simp [lookupKey]

theorem lookupKey_map_update (mem : List Entry) (k : String) (v : Value) (t : ℤ)
    (h : (lookupKey mem k).isSome) :
    lookupKey (mem.map (fun e => if e.1 = k then (k, v, t) else e)) k = some (v, t) := by
  induction mem with
  | nil => simp [lookupKey] at h
  | cons e rest ih =>
    by_cases hek : e.1 = k
    · simp [lookupKey, hek]
    · have h2 : (lookupKey rest k).isSome := by simpa [lookupKey, hek] using h
      simp [lookupKey, hek, ih h2]

theorem lookupKey_dictSet_self (mem : List Entry) (k : String) (v : Value) (t : ℤ) :
    lookupKey (dictSet mem k v t) k = some (v, t) := by
  unfold dictSet
  by_cases h : (lookupKey mem k).isSome
  · simpa [h] using lookupKey_map_update mem k v t h
  · have hn : lookupKey mem k = Option.none := Option.not_isSome_iff_eq_none.mp h
    rw [if_neg h, lookupKey_append_of_none hn]
    simp [lookupKey]

theorem dictSet_length_le (mem : List Entry) (k : String) (v : Value) (t : ℤ) :
    (dictSet mem k v t).length ≤ mem.length + 1 := by
  unfold dictSet
  split <;> simp

theorem dictSet_length_of_isSome {mem : List Entry} {k : String} (v : Value) (t : ℤ)
    (h : (lookupKey mem k).isSome) :
    (dictSet mem k v t).length = mem.length := by
  unfold dictSet
  rw [if_pos h, List.length_map]

/-! ### Sorting lemmas -/

theorem sortTs_perm (l : List Entry) : List.Perm (sortTs l) l :=
  List.perm_insertionSort tsLE l

theorem orderedInsert_append_last (a e : Entry) (xs : List Entry) (h : tsLE a e) :
    (xs ++ [e]).orderedInsert tsLE a = xs.orderedInsert tsLE a ++ [e] := by
  induction xs with
  | nil => simp [List.orderedInsert, h]
  | cons b xs ih =>
    by_cases hab : tsLE a b
    · simp [List.orderedInsert, hab]
    · simp [List.orderedInsert, hab, ih]

theorem sortTs_append_last (l : List Entry) (e : Entry) (h : ∀ b ∈ l, tsLE b e) :
    sortTs (l ++ [e]) = sortTs l ++ [e] := by
  induction l with
  | nil => simp [sortTs, List.insertionSort, List.orderedInsert]
  | cons a l ih =>
    have ih2 := ih (fun b hb => h b (List.mem_cons_of_mem a hb))
    have ha : tsLE a e := h a (List.mem_cons_self a l)
    simp only [sortTs, List.cons_append, List.insertionSort, List.append_eq] at ih2 ⊢
    rw [ih2, orderedInsert_append_last a e _ ha]

/-! ### Eviction lemmas -/

theorem evictOldest_length (mem : List Entry) (maxSize : Nat)
    (h : mem.length ≤ maxSize + 1) :
    (evictOldest mem maxSize).length ≤ maxSize := by
  unfold evictOldest
  split
  case isTrue hgt =>
    have hne : sortTs mem ≠ [] := by
      intro h0
      have := (sortTs_perm mem).length_eq
      rw [h0] at this
      simp at this
      omega
    obtain ⟨h0, rest, hs⟩ := List.exists_cons_of_ne_nil hne
    have hmem : h0 ∈ mem := (sortTs_perm mem).mem_iff.mp (by rw [hs]; exact List.mem_cons_self _ _)
    have htake : h0 ∈ (sortTs mem).take (max 1 (mem.length / 10)) := by
      rw [hs]
      rcases Nat.exists_eq_add_of_le (le_max_left 1 (mem.length / 10)) with ⟨m, hm⟩
      rw [hm, Nat.add_comm 1 m, List.take_succ_cons]
      exact List.mem_cons_self _ _
    have hlt : (mem.filter (fun e =>
        decide (e.1 ∉ ((sortTs mem).take (max 1 (mem.length / 10))).map (fun e => e.1)))).length
        < mem.length := by
      refine List.length_filter_lt_length_iff_exists.mpr ⟨h0, hmem, ?_⟩
      simp only [decide_eq_true_eq, Decidable.not_not]
      exact List.mem_map_of_mem _ htake
    omega
  case isFalse hle => omega

/-! ### Lemmas about the set operation -/

theorem pickleDumpEntry_ok (v : Value) (t : ℤ) (h : v ≠ Value.lock) :
    pickleDumpEntry v t = .ok (.record v t) := by
  cases v
  case lock => exact absurd rfl h
  all_goals rfl

theorem set_memory (s : CacheManager) (k : String) (v : Value) (now : ℤ) :
    ((CacheManager.set s k v now).2).memory = evictOldest (dictSet s.memory k v now) s.maxSize := by
  unfold CacheManager.set
  cases pickleDumpEntry v now with
  | ok c => rfl
  | error e =>
    by_cases hc : setCaught e <;> simp [hc]

theorem set_ttl (s : CacheManager) (k : String) (v : Value) (now : ℤ) :
    ((CacheManager.set s k v now).2).ttl = s.ttl := by
  unfold CacheManager.set
  cases pickleDumpEntry v now with
  | ok c => rfl
  | error e =>
    by_cases hc : setCaught e <;> simp [hc]

theorem set_maxSize (s : CacheManager) (k : String) (v : Value) (now : ℤ) :
    ((CacheManager.set s k v now).2).maxSize = s.maxSize := by
  unfold CacheManager.set
  cases pickleDumpEntry v now with
  | ok c => rfl
  | error e =>
    by_cases hc : setCaught e <;> simp [hc]

theorem set_disk (s : CacheManager) (k : String) (v : Value) (now : ℤ) (h : v ≠ Value.lock) :
    ((CacheManager.set s k v now).2).disk = diskSet s.disk k (.record v now) := by
  unfold CacheManager.set
  rw [pickleDumpEntry_ok v now h]

theorem lookupKey_filter_append (mem : List Entry) (e : Entry) (p : Entry → Bool)
    (hmem : ∀ x ∈ mem, x.1 ≠ e.1) (hp : p e = true) :
    lookupKey ((mem ++ [e]).filter p) e.1 = some e.2 := by
  rw [List.filter_append]
  have h1 : lookupKey (mem.filter p) e.1 = Option.none :=
    lookupKey_eq_none.mpr (fun x hx => hmem x (List.mem_of_mem_filter hx))
  rw [lookupKey_append_of_none h1]
  simp [hp, lookupKey]

theorem evictOldest_append_last (mem : List Entry) (k : String) (v : Value) (t : ℤ)
    (maxSize : Nat) (hmax : 1 ≤ maxSize)
    (hkeys : ∀ e ∈ mem, e.1 ≠ k) (hts : ∀ e ∈ mem, e.2.2 ≤ t) :
    lookupKey (evictOldest (mem ++ [(k, v, t)]) maxSize) k = some (v, t) := by
  unfold evictOldest
  split
  case isFalse =>
    rw [lookupKey_append_of_none (lookupKey_eq_none.mpr hkeys)]
    simp [lookupKey]
  case isTrue hgt =>
    have hsort : sortTs (mem ++ [(k, v, t)]) = sortTs mem ++ [(k, v, t)] :=
      sortTs_append_last mem (k, v, t) (fun b hb => hts b hb)
    have hlenmem : (sortTs mem).length = mem.length := (sortTs_perm mem).length_eq
    have hrle : max 1 ((mem ++ [(k, v, t)]).length / 10) ≤ (sortTs mem).length := by
      rw [hlenmem]
      simp only [List.length_append, List.length_cons, List.length_nil] at hgt ⊢
      have h10 : (mem.length + 1) / 10 < mem.length + 1 := Nat.div_lt_self (by omega) (by omega)
      omega
    have htake : (sortTs (mem ++ [(k, v, t)])).take (max 1 ((mem ++ [(k, v, t)]).length / 10))
        = (sortTs mem).take (max 1 ((mem ++ [(k, v, t)]).length / 10)) := by
      rw [hsort, List.take_append_of_le_length hrle]
    have hknotin : k ∉ ((sortTs (mem ++ [(k, v, t)])).take
        (max 1 ((mem ++ [(k, v, t)]).length / 10))).map (fun e => e.1) := by
      rw [htake]
      intro hk
      obtain ⟨x, hx, hx1⟩ := List.mem_map.mp hk
      exact hkeys x ((sortTs_perm mem).mem_iff.mp (List.mem_of_mem_take hx)) hx1
    exact lookupKey_filter_append mem (k, v, t) _ hkeys (by simpa using hknotin)

theorem lookupKey_set_memory_self (s : CacheManager) (k : String) (v : Value) (t : ℤ)
    (hmax : 1 ≤ s.maxSize) (hlen : s.memory.length ≤ s.maxSize)
    (hts : ∀ e ∈ s.memory, e.2.2 ≤ t) :
    lookupKey ((CacheManager.set s k v t).2).memory k = some (v, t) := by
  rw [set_memory]
  by_cases h : (lookupKey s.memory k).isSome
  · have hlength : (dictSet s.memory k v t).length = s.memory.length :=
      dictSet_length_of_isSome v t h
    unfold evictOldest
    rw [if_neg (by omega)]
    exact lookupKey_dictSet_self s.memory k v t
  · have hn : lookupKey s.memory k = Option.none := Option.not_isSome_iff_eq_none.mp h
    have hd : dictSet s.memory k v t = s.memory ++ [(k, v, t)] := by
      unfold dictSet
      rw [if_neg h]
    rw [hd]
    exact evictOldest_append_last s.memory k v t s.maxSize hmax
      (fun e he => lookupKey_eq_none.mp hn e he) hts

theorem set_length_le (s : CacheManager) (k : String) (v : Value) (t : ℤ)
    (h : s.memory.length ≤ s.maxSize) :
    ((CacheManager.set s k v t).2).memory.length ≤ s.maxSize := by
  rw [set_memory]
  exact evictOldest_length _ _ (le_trans (dictSet_length_le s.memory k v t) (by omega))

/-! ### Lemmas about the get operation -/

theorem get_miss (s : CacheManager) (k : String) (now : ℤ)
    (hm : lookupKey s.memory k = Option.none)
    (hd : lookupKey s.disk k = Option.none) :
    CacheManager.get s k now = (.ok Value.none, s) := by
  unfold CacheManager.get getFromFile
  rw [hm, hd]

/-! ### Concrete stores used in closed-form evaluations -/

/-- A fresh store with the default configuration (`ttl = 86400`,
`max_size = 1000`) and both tiers empty. -/
def emptyStore : CacheManager :=
  { ttl := 86400, maxSize := 1000, memory := [], disk := [] }

/-- A store whose durable tier holds a truncated (for example zero-byte)
record for key `k`. -/
def truncStore : CacheManager :=
  { emptyStore with disk := [("k", FileContent.truncated)] }

/-- The store after caching the Python `None` value under key `k` at time 0. -/
def noneStore : CacheManager := (CacheManager.set emptyStore "k" Value.none 0).2

/-- A store holding five valid entries, each present in the memory tier and as
a durable record. -/
def fiveStore : CacheManager :=
  { emptyStore with
    memory := [("k1", .int 1, 0), ("k2", .int 2, 0), ("k3", .int 3, 0),
               ("k4", .int 4, 0), ("k5", .int 5, 0)],
    disk := [("k1", .record (.int 1) 0), ("k2", .record (.int 2) 0),
             ("k3", .record (.int 3) 0), ("k4", .record (.int 4) 0),
             ("k5", .record (.int 5) 0)] }

/-- The store after the first call of a function wrapped with the per-function
TTL override `cached(ttl=1)`, made at time 0 and returning `42`. -/
def overrideStore : CacheManager :=
  (cachedWrapperT (some 1) emptyStore "m.g:abc" (.ok (.int 42)) 0).2.1

/-- A store with `max_size = 1` already holding one entry, so that the next
`set` of a fresh key triggers the eviction sweep. -/
def evictStore : CacheManager :=
  { ttl := 86400, maxSize := 1, memory := [("a", .int 1, 0)], disk := [] }

/-- A store with `max_size = 2`, used to exercise the eviction bound. -/
def twoStore : CacheManager :=
  { ttl := 86400, maxSize := 2, memory := [], disk := [] }

/-- Three distinct `set` calls, more than `twoStore.maxSize`. -/
def opsW : List (String × Value × ℤ) :=
  [("a", .int 1, 0), ("b", .int 2, 1), ("c", .int 3, 2)]

/-! ### Claim theorems -/

/-- C1: the claim states that every Cache Store operation converts I/O,
(de)serialization and permission errors into a miss, a false/no-op result, or
a skipped entry, for every durable-tier content including truncated data.
The code violates this: on a truncated durable record, `pickle.load` raises
`EOFError`, which is not among the classes caught by the `except` clause of
`get` (`pickle.PickleError, OSError, IOError, KeyError`), so `get` propagates
the exception to its caller instead of deleting the record and returning a
miss.  This theorem evaluates the embedded `get` at the failing input. -/
theorem C1_get_truncated_raises :
    (CacheManager.get truncStore "k" 0).1 = .error .eofError := rfl

/-- C2 counterexample: after `set("k", None)` the store does not distinguish
key-absent from value-None, contrary to the claim.  `get "k"` on the store
holding a cached `None` returns exactly the same `None` signal as `get` on an
empty store, and a memoized call whose cached result is `None` runs the
underlying function again (one more underlying invocation instead of a hit),
the permanent artificial miss the claim rules out. -/
theorem C2_none_indistinguishable_cex :
    (CacheManager.get noneStore "k" 0).1 = .ok Value.none ∧
    (CacheManager.get emptyStore "k" 0).1 = .ok Value.none ∧
    (cachedWrapper noneStore "k" (.ok Value.none) 0).2.2 = 1 :=
  ⟨rfl, rfl, by decide⟩

/-- C2 amended: for every storable value `v`, `set(k, v)` followed by
`get(k)` within the TTL window returns `v` — but the returned Python object
is the sole signal, and for `v = None` it coincides with the miss signal, so
callers (in particular the memoizing wrapper) cannot tell a cached `None`
from an absent key.  The provable round-trip part is stated here. -/
theorem C2_roundtrip_amended (s : CacheManager) (k : String) (v : Value) (t0 t1 : ℤ)
    (hmax : 1 ≤ s.maxSize) (hlen : s.memory.length ≤ s.maxSize)
    (hts : ∀ e ∈ s.memory, e.2.2 ≤ t0) (hvalid : t1 - t0 ≤ s.ttl) :
    (CacheManager.get ((CacheManager.set s k v t0).2) k t1).1 = .ok v := by
  have hm := lookupKey_set_memory_self s k v t0 hmax hlen hts
  unfold CacheManager.get
  rw [hm]
  simp [set_ttl, hvalid]

/-- C2 witness: the round-trip theorem applied to caching `None` in a fresh
default store and reading it back 5 seconds later. -/
theorem C2_roundtrip_amended_witness :
    (1 ≤ emptyStore.maxSize ∧ emptyStore.memory.length ≤ emptyStore.maxSize ∧
     (∀ e ∈ emptyStore.memory, e.2.2 ≤ 0) ∧ (5 : ℤ) - 0 ≤ emptyStore.ttl) ∧
    (CacheManager.get ((CacheManager.set emptyStore "k" Value.none 0).2) "k" 5).1
      = .ok Value.none :=
  ⟨⟨by decide, by decide, by decide, by decide⟩,
   C2_roundtrip_amended emptyStore "k" Value.none 0 5 (by decide) (by decide)
     (by decide) (by decide)⟩

/-- C3 counterexample: a pure function returning `None`, wrapped and called
twice with identical arguments within the TTL window, runs twice — not at
most once as the claim states — because the wrapper reads the cached `None`
as a miss.  Both calls do return identical values. -/
theorem C3_none_reinvoked_cex :
    (wrapperTwice emptyStore "k" (.ok Value.none) 0 1).2.2.2 = 2 ∧
    (wrapperTwice emptyStore "k" (.ok Value.none) 0 1).1 = .ok Value.none ∧
    (wrapperTwice emptyStore "k" (.ok Value.none) 0 1).2.1 = .ok Value.none :=
  ⟨by decide, rfl, rfl⟩

/-- C3 amended: for every pure function whose result on the given arguments
is NOT `None`, two wrapped calls with identical arguments within the TTL
window run the underlying function exactly once and return identical values;
a function whose result is `None` is re-run on every call. -/
theorem C3_memoized_once_amended (s : CacheManager) (key : String) (v : Value) (t1 t2 : ℤ)
    (hv : v ≠ Value.none)
    (hm : lookupKey s.memory key = Option.none)
    (hd : lookupKey s.disk key = Option.none)
    (hmax : 1 ≤ s.maxSize) (hlen : s.memory.length ≤ s.maxSize)
    (hts : ∀ e ∈ s.memory, e.2.2 ≤ t1) (hvalid : t2 - t1 ≤ s.ttl) :
    (wrapperTwice s key (.ok v) t1 t2).1 = .ok v ∧
    (wrapperTwice s key (.ok v) t1 t2).2.1 = .ok v ∧
    (wrapperTwice s key (.ok v) t1 t2).2.2.2 = 1 := by
  have hget1 := get_miss s key t1 hm hd
  have hw1 : cachedWrapper s key (.ok v) t1
      = (.ok v, (CacheManager.set s key v t1).2, 1) := by
    simp [cachedWrapper, hget1]
  have hmem2 := lookupKey_set_memory_self s key v t1 hmax hlen hts
  have hget2 : CacheManager.get ((CacheManager.set s key v t1).2) key t2
      = (.ok v, (CacheManager.set s key v t1).2) := by
    unfold CacheManager.get
    rw [hmem2]
    simp [set_ttl, hvalid]
  have hw2 : cachedWrapper ((CacheManager.set s key v t1).2) key (.ok v) t2
      = (.ok v, (CacheManager.set s key v t1).2, 0) := by
    simp [cachedWrapper, hget2, hv]
  simp [wrapperTwice, hw1, hw2]

/-- C3 witness: the amended memoization theorem applied to a function
returning `7` on a fresh default store, called at times 0 and 1. -/
theorem C3_memoized_once_amended_witness :
    (Value.int 7 ≠ Value.none ∧
     lookupKey emptyStore.memory "k" = Option.none ∧
     lookupKey emptyStore.disk "k" = Option.none ∧
     1 ≤ emptyStore.maxSize ∧ emptyStore.memory.length ≤ emptyStore.maxSize ∧
     (∀ e ∈ emptyStore.memory, e.2.2 ≤ 0) ∧ (1 : ℤ) - 0 ≤ emptyStore.ttl) ∧
    ((wrapperTwice emptyStore "k" (.ok (.int 7)) 0 1).1 = .ok (.int 7) ∧
     (wrapperTwice emptyStore "k" (.ok (.int 7)) 0 1).2.1 = .ok (.int 7) ∧
     (wrapperTwice emptyStore "k" (.ok (.int 7)) 0 1).2.2.2 = 1) :=
  ⟨⟨by decide, rfl, rfl, by decide, by decide, by decide, by decide⟩,
   C3_memoized_once_amended emptyStore "k" (.int 7) 0 1 (by decide) rfl rfl
     (by decide) (by decide) (by decide) (by decide)⟩

/-- C4 counterexample: for a wrapped function that raises on a cache miss,
one call of the wrapper runs the underlying function twice, not exactly once
as the claim states: the outer `except Exception` of the wrapper catches the
exception raised by the function itself and falls back to calling the
function directly a second time.  The exception does propagate unchanged. -/
theorem C4_double_invocation_cex :
    (cachedWrapper emptyStore "k" (.error (.other "boom")) 0).2.2 = 2 ∧
    (cachedWrapper emptyStore "k" (.error (.other "boom")) 0).1
      = .error (.other "boom") :=
  ⟨by decide, rfl⟩

/-- C4 amended: on a cache miss, a wrapped function that raises is run
exactly twice — the initial invocation inside the try block and the fall-back
direct call in the exception handler — and its exception propagates to the
caller unchanged; the fall-back is triggered by exceptions of the wrapped
function as well, not only by exceptions of the caching machinery. -/
theorem C4_raise_amended (s : CacheManager) (key : String) (e : PyExc) (now : ℤ)
    (hm : lookupKey s.memory key = Option.none)
    (hd : lookupKey s.disk key = Option.none) :
    (cachedWrapper s key (.error e) now).1 = .error e ∧
    (cachedWrapper s key (.error e) now).2.2 = 2 := by
  simp [cachedWrapper, get_miss s key now hm hd]

/-- C4 witness: the amended theorem applied to a raising function on a fresh
default store. -/
theorem C4_raise_amended_witness :
    (lookupKey emptyStore.memory "k" = Option.none ∧
     lookupKey emptyStore.disk "k" = Option.none) ∧
    ((cachedWrapper emptyStore "k" (.error (.other "x")) 0).1 = .error (.other "x") ∧
     (cachedWrapper emptyStore "k" (.error (.other "x")) 0).2.2 = 2) :=
  ⟨⟨rfl, rfl⟩, C4_raise_amended emptyStore "k" (.other "x") 0 rfl rfl⟩

/-- C5: the claim states that a wrapper built with `cached(ttl=1)` makes its
entries invalid after more than 1 second.  The code violates this: the `ttl`
argument of the decorator factory is never referenced by the produced
wrapper, so entries expire by the store default (86400 s).  At the failing
input — a second call 2 seconds after the first through a `cached(ttl=1)`
wrapper — the stale entry is served as a hit and the underlying function is
not re-run. -/
theorem C5_ttl_override_ignored :
    (cachedWrapperT (some 1) overrideStore "m.g:abc" (.ok (.int 42)) 2).1
      = .ok (.int 42) ∧
    (cachedWrapperT (some 1) overrideStore "m.g:abc" (.ok (.int 42)) 2).2.2 = 0 :=
  ⟨rfl, by decide⟩

/-- C6 counterexample: on a store with 5 valid entries, each present in the
memory tier and as a durable record, `clear()` returns 10, not 5 as the claim
states: the count starts at the number of memory entries and is incremented
once more for every durable file, so a key present in both tiers is counted
twice. -/
theorem C6_clear_double_count_cex :
    (CacheManager.clear fiveStore).1 = 10 ∧ (CacheManager.clear fiveStore).1 ≠ 5 :=
  ⟨by decide, by decide⟩

/-- Unfolding of the file-removal loop of `clear`. -/
theorem clearLoop_eq (d : List (String × FileContent)) (c : Nat) :
    clearLoop d c = c + d.length := by
  induction d generalizing c with
  | nil => simp [clearLoop]
  | cons e rest ih =>
    simp only [clearLoop, ih, List.length_cons]
    omega

/-- C6 amended: `clear()` removes all entries from both tiers and returns the
number of memory entries plus the number of durable records — counting a key
present in both tiers twice — and a subsequent `get` of any key is a miss. -/
theorem C6_clear_amended (s : CacheManager) :
    (CacheManager.clear s).1 = s.memory.length + s.disk.length ∧
    ∀ k now, (CacheManager.get (CacheManager.clear s).2 k now).1 = .ok Value.none := by
  constructor
  · exact clearLoop_eq s.disk s.memory.length
  · intro k now
    rw [get_miss (CacheManager.clear s).2 k now rfl rfl]

/-! ### Eviction bound over sequences of sets -/

theorem applySets_maxSize (pre : List (String × Value × ℤ)) (s : CacheManager) :
    (applySets s pre).maxSize = s.maxSize := by
  induction pre generalizing s with
  | nil => rfl
  | cons op rest ih =>
    obtain ⟨k, v, t⟩ := op
    show (applySets (CacheManager.set s k v t).2 rest).maxSize = s.maxSize
    rw [ih, set_maxSize]

theorem applySets_length_le (pre : List (String × Value × ℤ)) (s : CacheManager)
    (h : s.memory.length ≤ s.maxSize) :
    (applySets s pre).memory.length ≤ s.maxSize := by
  induction pre generalizing s with
  | nil => exact h
  | cons op rest ih =>
    obtain ⟨k, v, t⟩ := op
    show (applySets (CacheManager.set s k v t).2 rest).memory.length ≤ s.maxSize
    have h2 : ((CacheManager.set s k v t).2).memory.length
        ≤ ((CacheManager.set s k v t).2).maxSize := by
      rw [set_maxSize]
      exact set_length_le s k v t h
    have h3 := ih ((CacheManager.set s k v t).2) h2
    rwa [set_maxSize] at h3

/-- C7: starting from a store whose memory tier is within its bound, after
every completed `set` of any sequence of `set` calls — that is, after every
prefix of the sequence — the in-memory index size is at most `max_size`,
because whenever an insertion pushes the entry count above `max_size` the
sweep sorts by timestamp and removes the oldest `max(1, count // 10)`
entries. -/
theorem C7_eviction_bound (s : CacheManager) (ops pre suf : List (String × Value × ℤ))
    (_hops : ops = pre ++ suf) (hlen : s.memory.length ≤ s.maxSize) :
    (applySets s pre).memory.length ≤ s.maxSize :=
  applySets_length_le pre s hlen

/-- C7 witness: three distinct `set` calls on an empty store with
`max_size = 2` leave at most 2 memory entries. -/
theorem C7_eviction_bound_witness :
    (opsW = opsW ++ [] ∧ twoStore.memory.length ≤ twoStore.maxSize) ∧
    (applySets twoStore opsW).memory.length ≤ twoStore.maxSize :=
  ⟨⟨by simp, by decide⟩, C7_eviction_bound twoStore opsW opsW [] (by simp) (by decide)⟩

/-- C8: an entry is valid iff `now - timestamp <= ttl`: a `get` performed
more than `ttl` seconds after the `set` returns the miss signal, never the
stale value, and the expired entry is deleted from both the memory tier
(where it was found first) and the durable tier (consulted next and found
expired as well) during that access. -/
theorem C8_expiry (s : CacheManager) (k : String) (v : Value) (t0 t1 : ℤ)
    (hmax : 1 ≤ s.maxSize) (hlen : s.memory.length ≤ s.maxSize)
    (hts : ∀ e ∈ s.memory, e.2.2 ≤ t0) (hv : v ≠ Value.lock)
    (hexp : ¬ (t1 - t0 ≤ s.ttl)) :
    (CacheManager.get ((CacheManager.set s k v t0).2) k t1).1 = .ok Value.none ∧
    lookupKey (CacheManager.get ((CacheManager.set s k v t0).2) k t1).2.memory k
      = Option.none ∧
    lookupKey (CacheManager.get ((CacheManager.set s k v t0).2) k t1).2.disk k
      = Option.none := by
  have hm := lookupKey_set_memory_self s k v t0 hmax hlen hts
  have hdisk := set_disk s k v t0 hv
  unfold CacheManager.get
  rw [hm]
  simp only [set_ttl]
  rw [if_neg hexp]
  unfold getFromFile
  simp only [hdisk, lookupKey_diskSet_self, pickleLoadEntry, set_ttl]
  rw [if_neg hexp]
  exact ⟨rfl, lookupKey_removeKey_self _ _, lookupKey_removeKey_self _ _⟩

/-- C8 witness: caching `5` at time 0 in a fresh default store and reading it
back at time 86401 (one second past the 86400-second TTL) misses and leaves
both tiers without the key. -/
theorem C8_expiry_witness :
    (1 ≤ emptyStore.maxSize ∧ emptyStore.memory.length ≤ emptyStore.maxSize ∧
     (∀ e ∈ emptyStore.memory, e.2.2 ≤ 0) ∧ Value.int 5 ≠ Value.lock ∧
     ¬ ((86401 : ℤ) - 0 ≤ emptyStore.ttl)) ∧
    ((CacheManager.get ((CacheManager.set emptyStore "k" (.int 5) 0).2) "k" 86401).1
        = .ok Value.none ∧
     lookupKey (CacheManager.get ((CacheManager.set emptyStore "k" (.int 5) 0).2)
        "k" 86401).2.memory "k" = Option.none ∧
     lookupKey (CacheManager.get ((CacheManager.set emptyStore "k" (.int 5) 0).2)
        "k" 86401).2.disk "k" = Option.none) :=
  ⟨⟨by decide, by decide, by decide, by decide, by decide⟩,
   C8_expiry emptyStore "k" (.int 5) 0 86401 (by decide) (by decide) (by decide)
     (by decide) (by decide)⟩

/-! ### Key-derivation determinism -/

instance : IsTotal (String × Value) kwLE := ⟨fun a b => le_total a.1 b.1⟩

instance : IsTrans (String × Value) kwLE := ⟨fun _ _ _ h1 h2 => le_trans h1 h2⟩

theorem sortKw_perm (l : List (String × Value)) : List.Perm (sortKw l) l :=
  List.perm_insertionSort kwLE l

theorem sortKw_sorted (l : List (String × Value)) : (sortKw l).Sorted kwLE :=
  List.sorted_insertionSort kwLE l

theorem sortKw_sorted_lt (l : List (String × Value)) (hl : (l.map Prod.fst).Nodup) :
    (sortKw l).Sorted (fun a b => a.1 < b.1) := by
  have hnd2 : ((sortKw l).map Prod.fst).Nodup :=
    (((sortKw_perm l).map Prod.fst).nodup_iff).mpr hl
  have hne : (sortKw l).Pairwise (fun a b => a.1 ≠ b.1) :=
    List.pairwise_map.mp hnd2
  exact ((sortKw_sorted l).and hne).imp (fun h => lt_of_le_of_ne h.1 h.2)

theorem sortKw_eq (kw1 kw2 : List (String × Value)) (hperm : List.Perm kw1 kw2)
    (hnd : (kw1.map Prod.fst).Nodup) : sortKw kw1 = sortKw kw2 := by
  haveI : IsAntisymm (String × Value) (fun a b => a.1 < b.1) :=
    ⟨fun _ _ h1 h2 => absurd h2 (lt_asymm h1)⟩
  have hp : List.Perm (sortKw kw1) (sortKw kw2) :=
    ((sortKw_perm kw1).trans hperm).trans (sortKw_perm kw2).symm
  exact List.eq_of_perm_of_sorted hp (sortKw_sorted_lt kw1 hnd)
    (sortKw_sorted_lt kw2 (((hperm.map Prod.fst).nodup_iff).mp hnd))

/-- C9: deriving a cache key twice from identical positional arguments and
identical keyword-argument mappings yields identical keys, irrespective of
the insertion order of the keyword arguments, because the items are sorted by
key before being rendered and hashed. -/
theorem C9_key_determinism (args : List Value) (kw1 kw2 : List (String × Value))
    (hperm : List.Perm kw1 kw2) (hnd : (kw1.map Prod.fst).Nodup) :
    getCacheKey args kw1 = getCacheKey args kw2 := by
  unfold getCacheKey reprKwargs
  rw [sortKw_eq kw1 kw2 hperm hnd]

/-- C9 witness: the determinism theorem applied to the same two keyword
arguments given in the two possible orders. -/
theorem C9_key_determinism_witness :
    (List.Perm [("b", Value.int 1), ("a", Value.int 2)]
        [("a", Value.int 2), ("b", Value.int 1)] ∧
     ([("b", Value.int 1), ("a", Value.int 2)].map Prod.fst).Nodup) ∧
    getCacheKey [] [("b", Value.int 1), ("a", Value.int 2)]
      = getCacheKey [] [("a", Value.int 2), ("b", Value.int 1)] :=
  ⟨⟨List.Perm.swap ("a", Value.int 2) ("b", Value.int 1) [], by decide⟩,
   C9_key_determinism [] [("b", Value.int 1), ("a", Value.int 2)]
     [("a", Value.int 2), ("b", Value.int 1)]
     (List.Perm.swap ("a", Value.int 2) ("b", Value.int 1) []) (by decide)⟩

/-- C10: immediately after `set(k, v)` returns, key `k` is present in the
in-memory tier with value `v` (and the timestamp of the call): the eviction
sweep removes only oldest entries and never the entry just inserted, even
when that insertion triggered the sweep — given a positive `max_size`, a
memory tier within its bound, and no existing entry timestamped after the
call. -/
theorem C10_inserted_survives (s : CacheManager) (k : String) (v : Value) (t : ℤ)
    (hmax : 1 ≤ s.maxSize) (hlen : s.memory.length ≤ s.maxSize)
    (hts : ∀ e ∈ s.memory, e.2.2 ≤ t) :
    lookupKey ((CacheManager.set s k v t).2).memory k = some (v, t) :=
  lookupKey_set_memory_self s k v t hmax hlen hts

/-- C10 witness: on a full store with `max_size = 1`, inserting a second key
triggers the sweep, which evicts the older entry and keeps the inserted
one. -/
theorem C10_inserted_survives_witness :
    (1 ≤ evictStore.maxSize ∧ evictStore.memory.length ≤ evictStore.maxSize ∧
     (∀ e ∈ evictStore.memory, e.2.2 ≤ 1)) ∧
    lookupKey ((CacheManager.set evictStore "b" (.int 2) 1).2).memory "b"
      = some (.int 2, 1) :=
  ⟨⟨by decide, by decide, by decide⟩,
   C10_inserted_survives evictStore "b" (.int 2) 1 (by decide) (by decide) (by decide)⟩

end PrdCache
